import Mathlib

/-!
Verification of the `hh-ssl-cert-check` repository (hhru/ssl-cert-check).

The repository snapshot contains a single source file, `setup.py`, which is a
packaging descriptor.  The certificate-checker script it declares
(`hh-ssl-cert-check`) is not present in the snapshot, so the inspector logic
below is modelled from the specification's description of it (data model in
section 3, component design in section 4, error handling in section 7).  The
packaging metadata of `setup.py` is embedded directly from the source.
-/

namespace SslCertCheck

/-- Modelled from the spec: the error kinds of section 7, covering the
missing checker script: `FileNotFound`, `UnsupportedFormat`,
`DecryptionFailed`, `MalformedCertificate`, `MissingExpiryField`. -/
inductive ErrorKind where
  | fileNotFound
  | unsupportedFormat
  | decryptionFailed
  | malformedCertificate
  | missingExpiryField
deriving DecidableEq, Repr

/-- Modelled from the spec: the status enumeration
`{OK, WARNING, EXPIRED, UNREADABLE(cause)}` of sections 3 and 9, covering the
missing checker script. -/
inductive Status where
  | ok
  | warning
  | expired
  | unreadable (cause : ErrorKind)
deriving DecidableEq, Repr

/-- Modelled from the spec: `CertificateRecord` of section 3,
`{ path, notAfterTimestamp, subject (optional) }`, covering the missing
checker script.  Timestamps are Unix epoch seconds. -/
structure CertificateRecord where
  path : String
  notAfterTimestamp : Int
  subject : Option String
deriving DecidableEq, Repr

/-- Modelled from the spec: `CheckResult` of section 3,
`{ record, secondsRemaining, status }`, covering the missing checker script.
On an `UNREADABLE` outcome no record was loaded, so `record` and
`secondsRemaining` are absent. -/
structure CheckResult where
  path : String
  record : Option CertificateRecord
  secondsRemaining : Option Int
  status : Status
deriving DecidableEq, Repr

/-- Modelled from the spec: the parsed body of a certificate container,
covering the missing checker script.  A body is either malformed
(`MalformedCertificate`) or a certificate whose `notAfter` field may be
absent (`MissingExpiryField`). -/
inductive CertBody where
  | malformed
  | cert (notAfter : Option Int) (subject : Option String)
deriving DecidableEq, Repr

/-- Modelled from the spec: the content of a certificate file as the checker
sees it (section 6), covering the missing checker script: PEM text, a
PKCS#12 container optionally protected by a passphrase, or an unsupported
format. -/
inductive FileContent where
  | pem (body : CertBody)
  | pkcs12 (passphrase : Option String) (body : CertBody)
  | unsupported
deriving DecidableEq, Repr

/-- Modelled from the spec: the file system visible to the checker, covering
the missing checker script.  `none` means the path does not exist. -/
def FileSystem : Type := String → Option FileContent

/-- Modelled from the spec: step 2 of `inspect` (section 4.1), covering the
missing checker script: decode the container, failing with
`UnsupportedFormat` on an unknown format and with `DecryptionFailed` on a
wrong or missing PKCS#12 passphrase. -/
def decodeContent (content : FileContent) (passphrase : Option String) :
    Except ErrorKind CertBody :=
  match content with
  | .pem body => .ok body
  | .pkcs12 stored body =>
    match stored with
    | none => .ok body
    | some pw => if passphrase = some pw then .ok body else .error .decryptionFailed
  | .unsupported => .error .unsupportedFormat

/-- Modelled from the spec: step 3 of `inspect` (section 4.1), covering the
missing checker script: extract the `notAfter` field and the optional
subject, failing with `MalformedCertificate` or `MissingExpiryField`. -/
def extractFields (body : CertBody) : Except ErrorKind (Int × Option String) :=
  match body with
  | .malformed => .error .malformedCertificate
  | .cert none _ => .error .missingExpiryField
  | .cert (some t) subj => .ok (t, subj)

/-- Modelled from the spec: the classification invariant of section 3,
covering the missing checker script:
`EXPIRED if secondsRemaining <= 0 else WARNING if
secondsRemaining <= warnThresholdSeconds else OK`. -/
def classify (secondsRemaining warnThresholdSeconds : Int) : Status :=
  if secondsRemaining ≤ 0 then .expired
  else if secondsRemaining ≤ warnThresholdSeconds then .warning
  else .ok

/-- Modelled from the spec: `inspect(path, passphrase?, threshold)` of
section 4.1, covering the missing checker script.  `now` is the wall-clock
time captured once per invocation.  Every decode or parse failure is
returned as an `UNREADABLE` result; the function is total, so nothing is
raised past this boundary. -/
def inspect (fs : FileSystem) (path : String) (passphrase : Option String)
    (warnThresholdSeconds now : Int) : CheckResult :=
  match fs path with
  | none => ⟨path, none, none, .unreadable .fileNotFound⟩
  | some content =>
    match decodeContent content passphrase with
    | .error e => ⟨path, none, none, .unreadable e⟩
    | .ok body =>
      match extractFields body with
      | .error e => ⟨path, none, none, .unreadable e⟩
      | .ok (t, subj) =>
        let record : CertificateRecord := ⟨path, t, subj⟩
        let s : Int := t - now
        ⟨path, some record, some s, classify s warnThresholdSeconds⟩

/-- Modelled from the spec: the record produced by the load-and-parse stage
alone (steps 1-3 of section 4.1), before any classification, covering the
missing checker script. -/
def loadRecord (fs : FileSystem) (path : String) (passphrase : Option String) :
    Option CertificateRecord :=
  match fs path with
  | none => none
  | some content =>
    match decodeContent content passphrase with
    | .error _ => none
    | .ok body =>
      match extractFields body with
      | .error _ => none
      | .ok (t, subj) => some ⟨path, t, subj⟩

/-- Modelled from the spec: a run over a list of paths (sections 4.1 and 5),
covering the missing checker script: each file is evaluated independently
with the same captured time. -/
def runAll (fs : FileSystem) (paths : List String) (passphrase : Option String)
    (warnThresholdSeconds now : Int) : List CheckResult :=
  paths.map (fun p => inspect fs p passphrase warnThresholdSeconds now)

/-- Modelled from the spec: the severity ordering behind the worst-case exit
aggregation of section 6, covering the missing checker script: `OK` maps to
0, `WARNING` to 1, `EXPIRED` and `UNREADABLE` to 2. -/
def severity : Status → Nat
  | .ok => 0
  | .warning => 1
  | .expired => 2
  | .unreadable _ => 2

/-- Modelled from the spec: the worst-case aggregate exit code of sections 4.1
and 6, covering the missing checker script. -/
def exitCode : List CheckResult → Nat
  | [] => 0
  | r :: rs => max (severity r.status) (exitCode rs)

/-- Modelled from the spec: the exit code of a whole run, covering the
missing checker script. -/
def runExitCode (fs : FileSystem) (paths : List String)
    (passphrase : Option String) (warnThresholdSeconds now : Int) : Nat :=
  exitCode (runAll fs paths passphrase warnThresholdSeconds now)

/-- Modelled from the spec: a run against a wall clock (section 4.1 step 4),
covering the missing checker script.  `clock n` is the time the `n`-th
sampling of the wall clock would return; the invocation samples it exactly
once, at index 0, and never re-samples. -/
def runWithClock (fs : FileSystem) (paths : List String)
    (passphrase : Option String) (warnThresholdSeconds : Int)
    (clock : Nat → Int) : List CheckResult :=
  runAll fs paths passphrase warnThresholdSeconds (clock 0)

/-- Modelled from the spec: the observable side effects of one `inspect`
invocation (section 4.1), covering the missing checker script. -/
inductive Effect where
  | readFile (path : String)
  | writeFile (path : String)
  | networkAccess
deriving DecidableEq, Repr

/-- Modelled from the spec: `inspect` together with its effect trace
(section 4.1, "Side effects: none beyond reading the input file"), covering
the missing checker script: the only effect is one read of the input path. -/
def inspectTraced (fs : FileSystem) (path : String) (passphrase : Option String)
    (warnThresholdSeconds now : Int) : CheckResult × List Effect :=
  (inspect fs path passphrase warnThresholdSeconds now, [Effect.readFile path])

/-- Days from 0000-03-01-based civil reckoning to 1970-01-01, for Gregorian
dates with year ≥ 1 (Hinnant's civil-from-days algorithm restricted to
non-negative years). -/
def daysFromCivil (y m d : Nat) : Int :=
  let yAdj := if m ≤ 2 then y - 1 else y
  let era := yAdj / 400
  let yoe := yAdj % 400
  let mp := if m > 2 then m - 3 else m + 9
  let doy := (153 * mp + 2) / 5 + d - 1
  let doe := yoe * 365 + yoe / 4 - yoe / 100 + doy
  (era * 146097 + doe : Int) - 719468

/-- Unix epoch seconds of midnight UTC on a Gregorian date. -/
def epochSeconds (y m d : Nat) : Int := 86400 * daysFromCivil y m d

/-! ### Embedding of `src/setup.py` -/

/-- The left brace character, `Char.ofNat 123`. -/
def lbrace : Char := Char.ofNat 123

/-- The right brace character, `Char.ofNat 125`. -/
def rbrace : Char := Char.ofNat 125

/-- Scanner for `pyFormatOne`: replaces the first open-close brace pair with
the argument. -/
def fmtAux : List Char → List Char → List Char
  | [], _ => []
  | c :: cs, arg =>
    match cs with
    | [] => [c]
    | d :: rest =>
      if c = lbrace ∧ d = rbrace then arg ++ rest
      else c :: fmtAux cs arg

/-- Python's `str.format` with a single positional argument, as used on line
13 of `setup.py`: substitutes the argument for the first empty brace pair in
the template. -/
def pyFormatOne (template arg : String) : String :=
  ⟨fmtAux template.data arg.data⟩

/-- The module-level constant `_version = '0.0.2'` of `setup.py` line 3. -/
def pkgVersion : String := "0.0.2"

/-- The tarball URL template of `setup.py` line 13,
`https://github.com/hh.ru/ssl-cert-check/tarball/` followed by an empty
brace pair. -/
def downloadUrlTemplate : String :=
  "https://github.com/hh.ru/ssl-cert-check/tarball/" ++ ⟨[lbrace, rbrace]⟩

/-- The keyword arguments of the `setup(...)` call in `setup.py`. -/
structure SetupArgs where
  name : String
  version : String
  scripts : List String
  author : String
  authorEmail : String
  description : String
  license : String
  downloadUrl : String
  keywords : String
  url : String
deriving DecidableEq, Repr

/-- The `setup(...)` call of `setup.py` lines 5-16 (classifiers omitted:
they are inert metadata strings). -/
def setupArgs : SetupArgs :=
  { name := "hh-ssl-cert-check"
    version := pkgVersion
    scripts := ["hh-ssl-cert-check"]
    author := "Nikita Kovaliov"
    authorEmail := "n.kovalev@hh.ru"
    description := "SSL certificates check script"
    license := "Apache License 2.0"
    downloadUrl := pyFormatOne downloadUrlTemplate pkgVersion
    keywords := "ssl p12 pem check"
    url := "https://github.com/hh.ru/ssl-cert-check" }

/-- The source files present in the repository snapshot: only the packaging
descriptor. -/
def snapshotSourceFiles : List String := ["setup.py"]

/-- A concrete file system used to instantiate the theorems below: one good
PEM certificate, one passphrase-protected PKCS#12 file, one malformed PEM
file, one certificate without an expiry field, one unsupported file. -/
def sampleFS : FileSystem := fun p =>
  if p = "good.pem" then some (.pem (.cert (some 1000) (some "CN=example")))
  else if p = "bad.p12" then some (.pkcs12 (some "pw") (.cert (some 1000) none))
  else if p = "garbage.pem" then some (.pem .malformed)
  else if p = "noexpiry.pem" then some (.pem (.cert none none))
  else if p = "weird.bin" then some .unsupported
  else none

/-- Concrete file system for the spec's worked example: a certificate valid
until 2099-01-01 and a certificate that expired on 2020-01-01. -/
def exampleFS : FileSystem := fun p =>
  if p = "valid2099.pem" then some (.pem (.cert (some (epochSeconds 2099 1 1)) none))
  else if p = "expired2020.pem" then some (.pem (.cert (some (epochSeconds 2020 1 1)) none))
  else none

/-- A clock that always answers 5. -/
def clockA : Nat → Int := fun _ => 5

/-- A clock that answers 5 at the first sampling and drifts afterwards. -/
def clockB : Nat → Int := fun n => 5 + (n : Int)

/-- Every severity is at most 2. -/
theorem severity_le_two (s : Status) : severity s ≤ 2 := by
  cases s <;> simp [severity]

/-- The aggregate exit code is bounded by any bound on all severities. -/
theorem exitCode_le_of_forall (rs : List CheckResult) (n : Nat)
    (h : ∀ r ∈ rs, severity r.status ≤ n) : exitCode rs ≤ n := by
  induction rs with
  | nil => simp [exitCode]
  | cons r rs ih =>
    have h1 := h r (List.mem_cons_self r rs)
    have h2 := ih (fun x hx => h x (List.mem_cons_of_mem r hx))
    simp only [exitCode]
    omega

/-- The aggregate exit code dominates the severity of every member. -/
theorem le_exitCode_of_mem (rs : List CheckResult) (r : CheckResult)
    (h : r ∈ rs) : severity r.status ≤ exitCode rs := by
  induction rs with
  | nil => cases h
  | cons x xs ih =>
    rcases List.mem_cons.mp h with h | h
    · subst h
      simp only [exitCode]
      omega
    · have := ih h
      simp only [exitCode]
      omega

/-- Claim C1: a successful `inspect` satisfies
`secondsRemaining = notAfterTimestamp - now`, and the status is `EXPIRED`
when `secondsRemaining ≤ 0`, `WARNING` when
`0 < secondsRemaining ≤ warnThresholdSeconds` (inclusive at the threshold),
and `OK` otherwise; a `notAfter` in the past always yields `EXPIRED`. -/
theorem inspect_result_invariant (fs : FileSystem) (path : String)
    (pw : Option String) (th now : Int) (r0 : CertificateRecord)
    (h : (inspect fs path pw th now).record = some r0) :
    (inspect fs path pw th now).secondsRemaining =
      some (r0.notAfterTimestamp - now) ∧
    (r0.notAfterTimestamp - now ≤ 0 →
      (inspect fs path pw th now).status = Status.expired) ∧
    (0 < r0.notAfterTimestamp - now → r0.notAfterTimestamp - now ≤ th →
      (inspect fs path pw th now).status = Status.warning) ∧
    (0 < r0.notAfterTimestamp - now → th < r0.notAfterTimestamp - now →
      (inspect fs path pw th now).status = Status.ok) ∧
    (r0.notAfterTimestamp < now →
      (inspect fs path pw th now).status = Status.expired) := by
  cases hfs : fs path with
  | none => simp [inspect, hfs] at h
  | some content =>
    cases hdec : decodeContent content pw with
    | error e => simp [inspect, hfs, hdec] at h
    | ok body =>
      cases hext : extractFields body with
      | error e => simp [inspect, hfs, hdec, hext] at h
      | ok ts =>
        obtain ⟨t, subj⟩ := ts
        simp only [inspect, hfs, hdec, hext] at h ⊢
        obtain rfl : (⟨path, t, subj⟩ : CertificateRecord) = r0 :=
          Option.some.inj h
        refine ⟨rfl, ?_, ?_, ?_, ?_⟩ <;>
          · dsimp only
            intros
            simp only [classify]
            split_ifs <;> first | rfl | omega

/-- Claim C1 witness: the good PEM certificate of `sampleFS`, inspected with
threshold 30 at time 0. -/
theorem inspect_result_invariant_witness :
    (inspect sampleFS "good.pem" none 30 0).record =
      some ⟨"good.pem", 1000, some "CN=example"⟩ ∧
    (inspect sampleFS "good.pem" none 30 0).secondsRemaining =
      some ((1000 : Int) - 0) :=
  ⟨by decide,
   (inspect_result_invariant sampleFS "good.pem" none 30 0
      ⟨"good.pem", 1000, some "CN=example"⟩ (by decide)).1⟩

/-- Claim C2: every decode or parse failure (`FileNotFound`,
`UnsupportedFormat`, `DecryptionFailed`, `MalformedCertificate`,
`MissingExpiryField`) yields an `UNREADABLE` result carrying the underlying
cause; in particular a PKCS#12 file with a wrong passphrase yields
`UNREADABLE` with a `DecryptionFailed` cause, and `inspect` is total, so
nothing is raised past its boundary. -/
theorem inspect_unreadable_causes (fs : FileSystem) (path : String)
    (pw : Option String) (th now : Int) :
    (fs path = none →
      inspect fs path pw th now =
        ⟨path, none, none, Status.unreadable ErrorKind.fileNotFound⟩) ∧
    (fs path = some FileContent.unsupported →
      (inspect fs path pw th now).status =
        Status.unreadable ErrorKind.unsupportedFormat) ∧
    (∀ spw body, fs path = some (FileContent.pkcs12 (some spw) body) →
      pw ≠ some spw →
      (inspect fs path pw th now).status =
        Status.unreadable ErrorKind.decryptionFailed) ∧
    (fs path = some (FileContent.pem CertBody.malformed) →
      (inspect fs path pw th now).status =
        Status.unreadable ErrorKind.malformedCertificate) ∧
    (∀ subj, fs path = some (FileContent.pem (CertBody.cert none subj)) →
      (inspect fs path pw th now).status =
        Status.unreadable ErrorKind.missingExpiryField) := by
  refine ⟨?_, ?_, ?_, ?_, ?_⟩
  · intro hfs
    simp [inspect, hfs]
  · intro hfs
    simp [inspect, hfs, decodeContent]
  · intro spw body hfs hne
    simp [inspect, hfs, decodeContent, hne]
  · intro hfs
    simp [inspect, hfs, decodeContent, extractFields]
  · intro subj hfs
    simp [inspect, hfs, decodeContent, extractFields]

/-- Claim C2 witness: the PKCS#12 file of `sampleFS` inspected with the
wrong passphrase. -/
theorem inspect_unreadable_causes_witness :
    sampleFS "bad.p12" =
      some (FileContent.pkcs12 (some "pw") (CertBody.cert (some 1000) none)) ∧
    (some "wrong" : Option String) ≠ some "pw" ∧
    (inspect sampleFS "bad.p12" (some "wrong") 30 0).status =
      Status.unreadable ErrorKind.decryptionFailed :=
  ⟨by decide, by decide,
   (inspect_unreadable_causes sampleFS "bad.p12" (some "wrong") 30 0).2.2.1
     "pw" (CertBody.cert (some 1000) none) (by decide) (by decide)⟩

/-- Claim C3: a run evaluates every supplied path, and each path's result is
exactly `inspect` of that path alone, so a failure on one path (such as a
nonexistent path) does not affect the result of any other path. -/
theorem runAll_evaluates_every_path (fs : FileSystem) (paths : List String)
    (pw : Option String) (th now : Int) :
    (runAll fs paths pw th now).length = paths.length ∧
    ∀ (d : CheckResult) (i : Nat), i < paths.length →
      (runAll fs paths pw th now).getD i d =
        inspect fs (paths.getD i "") pw th now := by
  constructor
  · simp [runAll]
  · intro d i hi
    induction paths generalizing i with
    | nil => simp at hi
    | cons p ps ih =>
      cases i with
      | zero => simp [runAll]
      | succ n =>
        have hn : n < ps.length := by simpa using hi
        simpa [runAll] using ih n hn

/-- Claim C3 witness: a run over a missing path followed by a good path
still evaluates the good path, with the same result as inspecting it
alone. -/
theorem runAll_evaluates_every_path_witness :
    (1 : Nat) < (["missing.pem", "good.pem"] : List String).length ∧
    (runAll sampleFS ["missing.pem", "good.pem"] none 30 0).getD 1
        ⟨"", none, none, Status.ok⟩ =
      inspect sampleFS ((["missing.pem", "good.pem"] : List String).getD 1 "")
        none 30 0 :=
  ⟨by decide,
   (runAll_evaluates_every_path sampleFS ["missing.pem", "good.pem"]
      none 30 0).2 ⟨"", none, none, Status.ok⟩ 1 (by decide)⟩

/-- Claim C4: the exit code of a run is the worst-case aggregate of the
per-path statuses: 0 when every check is `OK`, 1 when some check is
`WARNING` and none is worse, 2 when some check is `EXPIRED` or
`UNREADABLE`. -/
theorem exit_code_worst_case (fs : FileSystem) (paths : List String)
    (pw : Option String) (th now : Int) :
    ((∀ r ∈ runAll fs paths pw th now, r.status = Status.ok) →
      runExitCode fs paths pw th now = 0) ∧
    ((∃ r ∈ runAll fs paths pw th now, r.status = Status.warning) →
      (∀ r ∈ runAll fs paths pw th now,
        r.status = Status.ok ∨ r.status = Status.warning) →
      runExitCode fs paths pw th now = 1) ∧
    ((∃ r ∈ runAll fs paths pw th now,
        r.status = Status.expired ∨ ∃ e, r.status = Status.unreadable e) →
      runExitCode fs paths pw th now = 2) := by
  refine ⟨?_, ?_, ?_⟩
  · intro h
    have hle := exitCode_le_of_forall (runAll fs paths pw th now) 0
      (fun r hr => by simp [h r hr, severity])
    simpa [runExitCode] using hle
  · rintro ⟨r, hr, hw⟩ hall
    have h1 : severity r.status = 1 := by simp [hw, severity]
    have h2 := le_exitCode_of_mem (runAll fs paths pw th now) r hr
    have h3 := exitCode_le_of_forall (runAll fs paths pw th now) 1
      (fun x hx => by rcases hall x hx with h | h <;> simp [h, severity])
    unfold runExitCode
    omega
  · rintro ⟨r, hr, hcase⟩
    have h1 : severity r.status = 2 := by
      rcases hcase with h | ⟨e, h⟩ <;> simp [h, severity]
    have h2 := le_exitCode_of_mem (runAll fs paths pw th now) r hr
    have h3 := exitCode_le_of_forall (runAll fs paths pw th now) 2
      (fun x hx => severity_le_two x.status)
    unfold runExitCode
    omega

/-- Claim C4 witness: a run over one missing path and one good path exits
with code 2. -/
theorem exit_code_worst_case_witness :
    (∃ r ∈ runAll sampleFS ["missing.pem", "good.pem"] none 30 0,
      r.status = Status.expired ∨ ∃ e, r.status = Status.unreadable e) ∧
    runExitCode sampleFS ["missing.pem", "good.pem"] none 30 0 = 2 := by
  have hmem : ∃ r ∈ runAll sampleFS ["missing.pem", "good.pem"] none 30 0,
      r.status = Status.expired ∨ ∃ e, r.status = Status.unreadable e :=
    ⟨inspect sampleFS "missing.pem" none 30 0, by decide,
     Or.inr ⟨ErrorKind.fileNotFound, by decide⟩⟩
  exact ⟨hmem,
    (exit_code_worst_case sampleFS ["missing.pem", "good.pem"] none 30 0).2.2
      hmem⟩

/-- Claim C5: the wall clock is sampled exactly once per run, so two runs
whose clocks agree at the single sampling produce identical results, and
`inspect` is a pure function of the inspected path's contents, passphrase,
threshold, and captured time: two file systems that agree on the path give
identical CheckResults. -/
theorem inspect_deterministic :
    (∀ (fs : FileSystem) (paths : List String) (pw : Option String)
       (th : Int) (clock1 clock2 : Nat → Int), clock1 0 = clock2 0 →
       runWithClock fs paths pw th clock1 = runWithClock fs paths pw th clock2) ∧
    (∀ (fs1 fs2 : FileSystem) (path : String) (pw : Option String)
       (th now : Int), fs1 path = fs2 path →
       inspect fs1 path pw th now = inspect fs2 path pw th now) := by
  constructor
  · intro fs paths pw th clock1 clock2 h
    simp [runWithClock, h]
  · intro fs1 fs2 path pw th now h
    simp only [inspect, h]

/-- Claim C5 witness: a constant clock and a drifting clock that agree at
the single sampling give identical runs. -/
theorem inspect_deterministic_witness :
    clockA 0 = clockB 0 ∧
    runWithClock sampleFS ["good.pem"] none 30 clockA =
      runWithClock sampleFS ["good.pem"] none 30 clockB :=
  ⟨by decide,
   inspect_deterministic.1 sampleFS ["good.pem"] none 30 clockA clockB
     (by decide)⟩

/-- Claim C6: the only side effect of `inspect` is one read of the input
path — its trace holds no write and no network access — and the record in
the result is exactly the record produced by loading, unchanged by
classification for every threshold and time. -/
theorem inspect_frame_effects (fs : FileSystem) (path : String)
    (pw : Option String) (th now : Int) :
    (inspectTraced fs path pw th now).2 = [Effect.readFile path] ∧
    (∀ e ∈ (inspectTraced fs path pw th now).2, e = Effect.readFile path) ∧
    Effect.networkAccess ∉ (inspectTraced fs path pw th now).2 ∧
    (inspectTraced fs path pw th now).1 = inspect fs path pw th now ∧
    (inspect fs path pw th now).record = loadRecord fs path pw := by
  refine ⟨rfl, ?_, by simp [inspectTraced], rfl, ?_⟩
  · intro e he
    simpa [inspectTraced] using he
  · cases hfs : fs path with
    | none => simp [inspect, loadRecord, hfs]
    | some content =>
      cases hdec : decodeContent content pw with
      | error e => simp [inspect, loadRecord, hfs, hdec]
      | ok body =>
        cases hext : extractFields body with
        | error e => simp [inspect, loadRecord, hfs, hdec, hext]
        | ok ts =>
          obtain ⟨t, subj⟩ := ts
          simp [inspect, loadRecord, hfs, hdec, hext]

/-- Claim C6 witness: the trace of inspecting the good PEM file is a single
read of that path, and its result record equals the loaded record. -/
theorem inspect_frame_effects_witness :
    (inspectTraced sampleFS "good.pem" none 30 0).2 =
      [Effect.readFile "good.pem"] ∧
    (inspect sampleFS "good.pem" none 30 0).record =
      loadRecord sampleFS "good.pem" none :=
  ⟨(inspect_frame_effects sampleFS "good.pem" none 30 0).1,
   (inspect_frame_effects sampleFS "good.pem" none 30 0).2.2.2.2⟩

/-- Claim C7: with a 30-day threshold at 2024-01-01, a certificate valid
until 2099-01-01 is classified `OK`, and a certificate that expired on
2020-01-01 is classified `EXPIRED`. -/
theorem inspect_concrete_examples :
    (inspect exampleFS "valid2099.pem" none (30 * 86400)
        (epochSeconds 2024 1 1)).status = Status.ok ∧
    (inspect exampleFS "expired2020.pem" none (30 * 86400)
        (epochSeconds 2024 1 1)).status = Status.expired := by
  decide

/-- Claim C8: the snapshot holds no implementation of the checker: its only
source file is the packaging descriptor `setup.py`, which declares the
single executable script `hh-ssl-cert-check`, and that script's file is not
among the snapshot's source files. -/
theorem snapshot_has_no_implementation :
    snapshotSourceFiles = ["setup.py"] ∧
    setupArgs.scripts = ["hh-ssl-cert-check"] ∧
    snapshotSourceFiles.contains "hh-ssl-cert-check" = false := by
  decide

/-- Claim C9: the packaging descriptor declares exactly one installed
script, and its name is identical to the declared package name. -/
theorem single_script_matches_name :
    setupArgs.scripts.length = 1 ∧ setupArgs.scripts = [setupArgs.name] := by
  decide

/-- Claim C10: the declared download URL is the fixed GitHub tarball base
followed by the single version constant, so the version embedded in the URL
equals the package's declared version field. -/
theorem download_url_version_consistent :
    setupArgs.downloadUrl =
      "https://github.com/hh.ru/ssl-cert-check/tarball/" ++ setupArgs.version ∧
    setupArgs.version = pkgVersion ∧
    pkgVersion = "0.0.2" := by
  decide

end SslCertCheck
